import Mathlib

/-!
seccam-web: verification of the event ingestion pipeline.

A shallow embedding of `main.go` (the seccam-web receiver) together with the
final variant of the program embedded in `README.md` (which additionally runs
the ffmpeg transcode step).  File contents are byte lists, the SQLite `events`
table is a list of rows plus the AUTOINCREMENT counter, the filesystem is an
association list from paths to contents, and the external collaborators
(ffmpeg, Twilio) are oracles passed as parameters.
-/

namespace Seccam

/-! Go `path/filepath` semantics (unix).

`NewEventHandler` calls `filepath.Join`, `filepath.Ext` and
`strings.TrimSuffix`; these model the Go standard library behaviour on
slash-separated paths. -/

/-- Split a character list on `'/'` separators (components may be empty),
as Go's `Clean` scans slash-separated elements. -/
def splitSlash : List Char → List (List Char)
  | [] => [[]]
  | c :: rest =>
    let r := splitSlash rest
    if c = '/' then [] :: r
    else
      match r with
      | [] => [[c]]
      | h :: t => (c :: h) :: t

/-- One step of Go `filepath.Clean`'s element loop: skip empty and `"."`
components, let `".."` pop the last real component (kept when the stack top is
itself `".."`, appended when the stack is empty and the path is not rooted,
dropped when rooted), push everything else.  The stack is kept reversed
(head = most recent component). -/
def cleanStep (rooted : Bool) (stack : List (List Char)) (c : List Char) :
    List (List Char) :=
  if c = [] ∨ c = ['.'] then stack
  else if c = ['.', '.'] then
    match stack with
    | [] => if rooted then [] else [['.', '.']]
    | s :: rest => if s = ['.', '.'] then ['.', '.'] :: s :: rest else rest
  else c :: stack

/-- Go `filepath.Clean` on unix: returns `"."` for the empty path, otherwise
processes the slash-separated components and re-joins them, prefixing `'/'`
for rooted paths (a rooted path with no components cleans to `"/"`). -/
def goClean (path : String) : String :=
  match path.toList with
  | [] => "."
  | c :: cs =>
    let rooted := c = '/'
    let stack := (splitSlash (c :: cs)).foldl (cleanStep rooted) []
    let body := List.intercalate ['/'] stack.reverse
    if rooted then String.mk ('/' :: body)
    else if body = [] then "." else String.mk body

/-- Go `filepath.Join` restricted to two arguments, as called in
`NewEventHandler` (`filepath.Join(app.Config.dirs.data, handler.Filename)`):
all-empty arguments give `""`, otherwise the elements from the first
non-empty one are joined with `'/'` and cleaned. -/
def goJoin2 (d f : String) : String :=
  if d = "" then
    if f = "" then "" else goClean f
  else goClean (String.mk (d.toList ++ '/' :: f.toList))

/-- Helper for Go `filepath.Ext`: the input is the path's characters in
reverse; collect characters up to and including the first `'.'`; a `'/'` or
the start of the path before any `'.'` means there is no extension. -/
def goExtRevAux : List Char → Option (List Char)
  | [] => none
  | c :: rest =>
    if c = '/' then none
    else if c = '.' then some [c]
    else (goExtRevAux rest).map (fun e => c :: e)

/-- Go `filepath.Ext`: the suffix starting at the final dot of the last
path element, `""` when there is none. -/
def goExt (path : String) : String :=
  match goExtRevAux path.toList.reverse with
  | none => ""
  | some e => String.mk e.reverse

/-- Go `strings.TrimSuffix`: drop `suffix` from the end of `s` when present,
otherwise return `s` unchanged. -/
def trimSuffix (s suffix : String) : String :=
  if List.isSuffixOf suffix.toList s.toList then
    String.mk (s.toList.take (s.toList.length - suffix.toList.length))
  else s

/-! The filesystem (data directory). -/

/-- The media store: an association list from file paths to byte contents.
Writes prepend (later bindings shadow earlier ones); reads take the first
binding; removal deletes every binding of the path. -/
abbrev FS : Type := List (String × List Nat)

/-- Read a file's contents, `none` when the path does not exist. -/
def fsRead (fs : FS) (p : String) : Option (List Nat) :=
  match List.find? (fun e => e.1 == p) fs with
  | some e => some e.2
  | none => none

/-- Create or replace the binding for path `p`. -/
def fsWrite (fs : FS) (p : String) (c : List Nat) : FS :=
  (p, c) :: fs

/-- Go `os.Remove`: delete the file at `p` (every binding of `p`). -/
def fsRemove (fs : FS) (p : String) : FS :=
  List.filter (fun e => !(e.1 == p)) fs

/-- Go `os.OpenFile(p, O_WRONLY|O_CREATE, 0775)` followed by `io.Copy`:
the flags do NOT include `O_TRUNC`, so writing starts at offset zero over the
existing contents and any tail of a longer pre-existing file survives. -/
def writeFileNoTrunc (fs : FS) (p : String) (content : List Nat) : FS :=
  let old := (fsRead fs p).getD []
  fsWrite fs p (content ++ List.drop content.length old)

/-! The event store (the `events` table). -/

/-- One row of the `events` table (`Event` struct in `main.go`). -/
structure Event where
  id : Int
  name : String
  time : Nat
  video : String
  image : String
deriving DecidableEq, Repr

/-- The SQLite store: the table rows in insertion order plus the
`AUTOINCREMENT` counter for the next `id` (ids are never reused). -/
structure DB where
  rows : List Event
  nextId : Int
deriving DecidableEq, Repr

/-- State after `CreateTable` on a fresh database file: empty table, next id 1. -/
def initDB : DB := ⟨[], 1⟩

/-- Well-formedness of the store: row ids strictly increase in insertion
order and every assigned id is below the `AUTOINCREMENT` counter. -/
def DB.WF (db : DB) : Prop :=
  List.Chain' (fun a b => a.id < b.id) db.rows ∧
    ∀ e ∈ db.rows, e.id < db.nextId

/-- Go `CreateEvent`: `INSERT INTO events(name, video, image) VALUES (?, ?, ?)`
with `time` defaulting to the insert time and `id` assigned by
`AUTOINCREMENT`; returns the updated store and `LastInsertId`. -/
def CreateEvent (db : DB) (event : Event) (now : Nat) : DB × Int :=
  let rowId := db.nextId
  (⟨db.rows ++
      [{ id := rowId, name := event.name, time := now,
         video := event.video, image := event.image }],
    db.nextId + 1⟩,
   rowId)

/-- Go `GetEvent` as written in `main.go`: the SQL text is
`SELECT * FROM events WHERE id = ?`, but the call site is
`app.DB.Query(sql_row, 1)` — the parameter is the literal `1`, not `id` —
then `row.Next()`/`Scan` take the first matching row; `none` models the
panic taken when `Scan` finds no row. -/
def GetEvent (db : DB) (id : Int) : Option Event :=
  List.head? (List.filter (fun e => e.id == 1) db.rows)

/-- The `GetEvent` of the final program embedded in `README.md`:
`app.DB.QueryRow(sql_row, id)` — the query parameter is the given `id`;
`none` models the `sql.ErrNoRows` panic. -/
def GetEventById (db : DB) (id : Int) : Option Event :=
  List.head? (List.filter (fun e => e.id == id) db.rows)

/-- The `IndexHandler` query `SELECT * FROM events ORDER BY id DESC LIMIT 5`:
sort the rows by descending id and keep the first five. -/
def IndexEvents (db : DB) : List Event :=
  List.take 5 (List.insertionSort (fun a b => b.id ≤ a.id) db.rows)

/-! The ingestion pipeline (`NewEventHandler`). -/

/-- One uploaded multipart file part: the client-supplied file name
(`handler.Filename`) and the byte stream. -/
structure FilePart where
  filename : String
  content : List Nat
deriving DecidableEq, Repr

/-- A parsed ingestion request: total multipart payload size in bytes, the
`name` form value, and the optional `video` and `image` file parts
(`none` models `r.FormFile` failing for a missing part). -/
structure Request where
  payloadSize : Nat
  name : String
  video : Option FilePart
  image : Option FilePart
deriving DecidableEq, Repr

/-- What the handler does to the connection: a panic (no status written) or
an HTTP status code. -/
inductive Outcome where
  | panic : Outcome
  | response : Nat → Outcome
deriving DecidableEq, Repr

/-- The state after one ingestion request: the outcome plus the resulting
store and filesystem. -/
structure HResult where
  out : Outcome
  db : DB
  fs : FS
deriving DecidableEq

/-- The configuration relevant to the pipeline: the `-data` directory. -/
structure Config where
  data : String
deriving DecidableEq, Repr

/-- Go `NewEventHandler` from `main.go`.  `r.ParseMultipartForm(104857600)` is
the multipart parse: its argument only bounds in-memory buffering (file parts
beyond it spill to temporary files), so no payload size is rejected and
`payloadSize` is not consulted.  A missing `video` or `image` part makes the
handler panic (either at the `err` check after the two `FormFile` calls or at
the nil `vHandler.Filename` dereference) before any file is written.  Both
files are saved (no `O_TRUNC`), the event is committed when `name`, image
path and video path are all non-empty, the committed row is re-fetched with
the (id-ignoring) `GetEvent` — a failed fetch panics after the commit — and
`SendSMS`'s result (`smsOk`) is ignored entirely. -/
def NewEventHandler (cfg : Config) (db : DB) (fs : FS) (r : Request)
    (now : Nat) (smsOk : Bool) : HResult :=
  let name := r.name
  match r.video, r.image with
  | some vf, some imf =>
    let vPath := goJoin2 cfg.data vf.filename
    let iPath := goJoin2 cfg.data imf.filename
    let fs1 := writeFileNoTrunc fs vPath vf.content
    let fs2 := writeFileNoTrunc fs1 iPath imf.content
    let event : Event :=
      { id := 0, name := name, time := 0, video := vPath, image := iPath }
    if event.name ≠ "" ∧ event.image ≠ "" ∧ event.video ≠ "" then
      let res := CreateEvent db event now
      match GetEvent res.1 res.2 with
      | some _ => { out := .response 202, db := res.1, fs := fs2 }
      | none => { out := .panic, db := res.1, fs := fs2 }
    else
      { out := .response 406, db := db, fs := fs2 }
  | _, _ => { out := .panic, db := db, fs := fs }

/-- The `NewEventHandler` of the final program embedded in `README.md`, which
additionally re-encodes the video: `newVideoPath` is the saved path with its
extension replaced by `".mp4"`, and ffmpeg is modelled by the oracle `tr`
(`some out` = the encoder wrote `out` bytes at `newVideoPath` and exited 0,
after which the handler removes the old file and commits the new path;
`none` = the encoder failed or is missing, the error is logged and the
handler continues with the original path).  The committed row is re-fetched
with the by-id `GetEventById` of this variant. -/
def NewEventHandlerT (cfg : Config) (db : DB) (fs : FS) (r : Request)
    (now : Nat) (tr : Option (List Nat)) (smsOk : Bool) : HResult :=
  let name := r.name
  match r.video, r.image with
  | some vf, some imf =>
    let vPath := goJoin2 cfg.data vf.filename
    let iPath := goJoin2 cfg.data imf.filename
    let fs1 := writeFileNoTrunc fs vPath vf.content
    let fs2 := writeFileNoTrunc fs1 iPath imf.content
    let newVideoPath := trimSuffix vPath (goExt vPath) ++ ".mp4"
    let step :=
      match tr with
      | some outBytes =>
        (newVideoPath, fsRemove (fsWrite fs2 newVideoPath outBytes) vPath)
      | none => (vPath, fs2)
    let event : Event :=
      { id := 0, name := name, time := 0, video := step.1, image := iPath }
    if event.name ≠ "" ∧ event.image ≠ "" ∧ event.video ≠ "" then
      let res := CreateEvent db event now
      match GetEventById res.1 res.2 with
      | some _ => { out := .response 202, db := res.1, fs := step.2 }
      | none => { out := .panic, db := res.1, fs := step.2 }
    else
      { out := .response 406, db := db, fs := step.2 }
  | _, _ => { out := .panic, db := db, fs := fs }

/-- The `SendSMS` message:
`fmt.Sprintf("Motion event captured at %s.", event.Time)` — the message
interpolates only the event's time. -/
def smsMessage (e : Event) : String :=
  "Motion event captured at " ++ toString e.time ++ "."

/-- Database states reachable by the application itself: the table starts
empty (`CreateTable` on a fresh file) and grows only by `CreateEvent`. -/
inductive Reachable : DB → Prop where
  | init : Reachable initDB
  | step (db : DB) (event : Event) (now : Nat) :
      Reachable db → Reachable (CreateEvent db event now).1

/-! Concrete sample inputs used by witnesses and counterexamples. -/

/-- A sample configuration: data directory `"data"`. -/
def sampleCfg : Config := { data := "data" }

/-- A sample valid ingestion request: name `"x"`, a video `a.avi` and an
image `b.jpg`. -/
def sampleReq : Request :=
  { payloadSize := 100, name := "x",
    video := some { filename := "a.avi", content := [7] },
    image := some { filename := "b.jpg", content := [8] } }

/-- A sample well-formed non-empty store (one row, next id 2). -/
def sampleDB : DB :=
  { rows := [{ id := 1, name := "a", time := 0, video := "v", image := "i" }],
    nextId := 2 }

/-- A sample request whose `name` field and uploaded file names are all
empty, with both file parts present. -/
def emptyNameReq : Request :=
  { payloadSize := 100, name := "",
    video := some { filename := "", content := [] },
    image := some { filename := "", content := [] } }

instance : IsTrans Event fun a b => b.id ≤ a.id :=
  ⟨fun _ _ _ h₁ h₂ => le_trans h₂ h₁⟩

instance : IsTotal Event fun a b => b.id ≤ a.id :=
  ⟨fun a b => le_total b.id a.id⟩

instance : IsTrans Event fun a b => a.id < b.id :=
  ⟨fun _ _ _ h₁ h₂ => lt_trans h₁ h₂⟩

/-! Helper lemmas. -/

theorem mk_ne_empty (l : List Char) (h : l ≠ []) : String.mk l ≠ "" := by
  intro he
  apply h
  simpa using congrArg String.data he

theorem goClean_ne_empty (p : String) : goClean p ≠ "" := by
  unfold goClean
  split
  · decide
  · dsimp only
    split
    · exact mk_ne_empty _ (by simp)
    · split
      · decide
      · exact mk_ne_empty _ (by assumption)

theorem goJoin2_ne_empty (d f : String) (hd : d ≠ "") : goJoin2 d f ≠ "" := by
  unfold goJoin2
  rw [if_neg hd]
  exact goClean_ne_empty _

theorem fsRead_write_self (fs : FS) (p : String) (c : List Nat) :
    fsRead (fsWrite fs p c) p = some c := by
  simp [fsRead, fsWrite]

theorem fsRead_write_ne (fs : FS) (p q : String) (c : List Nat) (h : q ≠ p) :
    fsRead (fsWrite fs p c) q = fsRead fs q := by
  simp [fsRead, fsWrite, List.find?_cons, Ne.symm h]

theorem fsRead_writeFileNoTrunc_self (fs : FS) (p : String) (c : List Nat) :
    fsRead (writeFileNoTrunc fs p c) p
      = some (c ++ List.drop c.length ((fsRead fs p).getD [])) := by
  simp [writeFileNoTrunc, fsRead_write_self]

theorem fsRead_writeFileNoTrunc_ne (fs : FS) (p q : String) (c : List Nat)
    (h : q ≠ p) :
    fsRead (writeFileNoTrunc fs p c) q = fsRead fs q := by
  simp [writeFileNoTrunc, fsRead_write_ne _ _ _ _ h]

theorem fsRead_remove_self (fs : FS) (p : String) :
    fsRead (fsRemove fs p) p = none := by
  have : List.find? (fun e => e.1 == p) (fsRemove fs p) = none := by
    rw [List.find?_eq_none]
    intro x hx
    have := (List.mem_filter.mp hx).2
    simpa using this
  simp [fsRead, this]

theorem fsRead_remove_ne (fs : FS) (p q : String) (h : q ≠ p) :
    fsRead (fsRemove fs p) q = fsRead fs q := by
  induction fs with
  | nil => rfl
  | cons e rest ih =>
    by_cases hk : e.1 = p
    · have h1 : fsRemove (e :: rest) p = fsRemove rest p := by
        simp [fsRemove, hk]
      have h2 : fsRead (e :: rest) q = fsRead rest q := by
        simp [fsRead, List.find?_cons, hk, Ne.symm h]
      rw [h1, h2, ih]
    · have h1 : fsRemove (e :: rest) p = e :: fsRemove rest p := by
        simp [fsRemove, hk]
      rw [h1]
      by_cases hq : e.1 = q
      · simp [fsRead, List.find?_cons, hq]
      · simp only [fsRead, List.find?_cons]
        have : (e.1 == q) = false := by simpa using hq
        rw [this]
        exact ih

theorem reachable_first {db : DB} (h : Reachable db) :
    (db.rows = [] ∧ db.nextId = 1) ∨ ∃ e t, db.rows = e :: t ∧ e.id = 1 := by
  induction h with
  | init => exact Or.inl ⟨rfl, rfl⟩
  | step db ev now _ ih =>
    right
    rcases ih with ⟨hr, hn⟩ | ⟨e, t, hr, he⟩
    · refine ⟨{ id := db.nextId, name := ev.name, time := now,
                video := ev.video, image := ev.image }, [], ?_, ?_⟩
      · simp [CreateEvent, hr]
      · simpa using hn
    · exact ⟨e, t ++ [{ id := db.nextId, name := ev.name, time := now,
                        video := ev.video, image := ev.image }],
        by simp [CreateEvent, hr], he⟩

theorem getEvent_insert_isSome {db : DB} (h : Reachable db) (ev : Event)
    (now : Nat) (i : Int) :
    (GetEvent (CreateEvent db ev now).1 i).isSome := by
  rcases reachable_first h with ⟨hr, hn⟩ | ⟨e, t, hr, he⟩
  · simp [GetEvent, CreateEvent, hr, hn]
  · simp [GetEvent, CreateEvent, hr, he]

theorem getEventById_insert {db : DB} (hWF : DB.WF db) (ev : Event)
    (now : Nat) :
    GetEventById (CreateEvent db ev now).1 (CreateEvent db ev now).2
      = some { id := db.nextId, name := ev.name, time := now,
               video := ev.video, image := ev.image } := by
  have hfilter :
      List.filter (fun e => e.id == db.nextId) db.rows = [] := by
    rw [List.filter_eq_nil_iff]
    intro x hx
    have := hWF.2 x hx
    simp only [beq_iff_eq]
    omega
  simp [GetEventById, CreateEvent, List.filter_append, hfilter]

/-- The sample store is well formed. -/
theorem sampleDB_WF : DB.WF sampleDB :=
  ⟨List.chain'_singleton _, by decide⟩

/-! Claim theorems. -/

/-- C3: the claim says fetching the id returned by `CreateEvent` via
`GetEvent` yields the record just inserted, and that fetching an absent id
fails.  The code violates both: `main.go`'s `GetEvent` passes the literal `1`
as the query parameter instead of `id`, so after inserting `"first"` and then
`"motion-1"` into a fresh store, fetching the second returned id (2) yields
the FIRST row, fetching the absent id 99 also succeeds with the first row,
while the by-id variant embedded in `README.md` (the documented intent)
returns the `"motion-1"` row for id 2. -/
theorem c3_getEvent_ignores_requested_id :
    GetEvent ((CreateEvent ((CreateEvent initDB
          { id := 0, name := "first", time := 0, video := "v1", image := "i1" } 10).1)
          { id := 0, name := "motion-1", time := 0, video := "a.mp4", image := "a.jpg" } 20).1)
        ((CreateEvent ((CreateEvent initDB
          { id := 0, name := "first", time := 0, video := "v1", image := "i1" } 10).1)
          { id := 0, name := "motion-1", time := 0, video := "a.mp4", image := "a.jpg" } 20).2)
      = some { id := 1, name := "first", time := 10, video := "v1", image := "i1" } ∧
    GetEventById ((CreateEvent ((CreateEvent initDB
          { id := 0, name := "first", time := 0, video := "v1", image := "i1" } 10).1)
          { id := 0, name := "motion-1", time := 0, video := "a.mp4", image := "a.jpg" } 20).1)
        2
      = some { id := 2, name := "motion-1", time := 20, video := "a.mp4", image := "a.jpg" } ∧
    GetEvent ((CreateEvent ((CreateEvent initDB
          { id := 0, name := "first", time := 0, video := "v1", image := "i1" } 10).1)
          { id := 0, name := "motion-1", time := 0, video := "a.mp4", image := "a.jpg" } 20).1)
        99
      = some { id := 1, name := "first", time := 10, video := "v1", image := "i1" } := by
  decide

/-- C1 counterexample: a request with a missing `video` part (name present,
image present) makes `NewEventHandler` panic — no HTTP 406 is written — so
the claim's "406 whenever any of the name, video, or image fields is missing"
is false (though indeed no row is added). -/
theorem c1_missing_part_panics :
    (NewEventHandler sampleCfg initDB []
        { payloadSize := 100, name := "x", video := none,
          image := some { filename := "b.jpg", content := [8] } } 5 true).out
      = Outcome.panic ∧
    Outcome.panic ≠ Outcome.response 406 ∧
    (NewEventHandler sampleCfg initDB []
        { payloadSize := 100, name := "x", video := none,
          image := some { filename := "b.jpg", content := [8] } } 5 true).db
      = initDB := by
  decide

/-- C1 (amended): on a reachable store with a non-empty data directory, the
response is HTTP 202 exactly when one new row was committed; HTTP 406 (with
the store unchanged) occurs only when the `name` field is empty; and a
missing video or image part yields a panic — not a 406 — with no row
added. -/
theorem c1_response_classification (cfg : Config) (db : DB) (fs : FS)
    (r : Request) (now : Nat) (b : Bool)
    (hreach : Reachable db) (hd : cfg.data ≠ "") :
    ((NewEventHandler cfg db fs r now b).out = Outcome.response 202 ↔
      (NewEventHandler cfg db fs r now b).db.rows.length
        = db.rows.length + 1) ∧
    ((NewEventHandler cfg db fs r now b).out = Outcome.response 406 →
      (NewEventHandler cfg db fs r now b).db = db ∧ r.name = "") ∧
    ((r.video = none ∨ r.image = none) →
      (NewEventHandler cfg db fs r now b).out = Outcome.panic ∧
      (NewEventHandler cfg db fs r now b).db = db) := by
  cases hv : r.video with
  | none =>
    refine ⟨?_, ?_, ?_⟩
    · simp only [NewEventHandler, hv]
      constructor
      · intro h
        exact absurd h (by cases r.image <;> simp)
      · intro h
        exact absurd h (by cases r.image <;> simp)
    · intro h
      exact absurd h (by cases r.image <;> simp [NewEventHandler, hv])
    · intro _
      cases r.image <;> simp [NewEventHandler, hv]
  | some vf =>
    cases hi : r.image with
    | none =>
      refine ⟨?_, ?_, ?_⟩
      · simp only [NewEventHandler, hv, hi]
        constructor
        · intro h
          exact absurd h (by simp)
        · intro h
          exact absurd h (by simp)
      · intro h
        exact absurd h (by simp [NewEventHandler, hv, hi])
      · intro _
        simp [NewEventHandler, hv, hi]
    | some imf =>
      by_cases hn : r.name = ""
      · refine ⟨?_, ?_, ?_⟩
        · simp only [NewEventHandler, hv, hi]
          rw [if_neg (by simp [hn])]
          constructor
          · intro h
            exact absurd h (by simp)
          · intro h
            simp only [HResult.db] at h
            omega
        · intro _
          simp only [NewEventHandler, hv, hi]
          rw [if_neg (by simp [hn])]
          exact ⟨rfl, hn⟩
        · intro h
          rcases h with h | h
          · simp at h
          · simp at h
      · have hsome := getEvent_insert_isSome hreach
          (Event.mk 0 r.name 0 (goJoin2 cfg.data vf.filename)
            (goJoin2 cfg.data imf.filename)) now
        have hred : NewEventHandler cfg db fs r now b
            = { out := Outcome.response 202,
                db := (CreateEvent db
                  (Event.mk 0 r.name 0 (goJoin2 cfg.data vf.filename)
                    (goJoin2 cfg.data imf.filename)) now).1,
                fs := writeFileNoTrunc
                  (writeFileNoTrunc fs (goJoin2 cfg.data vf.filename) vf.content)
                  (goJoin2 cfg.data imf.filename) imf.content } := by
          simp only [NewEventHandler, hv, hi]
          rw [if_pos ⟨hn, goJoin2_ne_empty _ _ hd, goJoin2_ne_empty _ _ hd⟩]
          obtain ⟨ev, hev⟩ := Option.isSome_iff_exists.mp
            (hsome (CreateEvent db
              (Event.mk 0 r.name 0 (goJoin2 cfg.data vf.filename)
                (goJoin2 cfg.data imf.filename)) now).2)
          rw [hev]
        refine ⟨?_, ?_, ?_⟩
        · rw [hred]
          simp [CreateEvent]
        · rw [hred]
          intro h
          exact absurd h (by simp)
        · intro h
          rcases h with h | h <;> simp_all

/-- C1 witness: the amended classification instantiated on a fresh store and
the sample valid request. -/
theorem c1_response_classification_witness :
    Reachable initDB ∧ sampleCfg.data ≠ "" ∧
    (((NewEventHandler sampleCfg initDB [] sampleReq 5 true).out
        = Outcome.response 202 ↔
      (NewEventHandler sampleCfg initDB [] sampleReq 5 true).db.rows.length
        = initDB.rows.length + 1) ∧
     ((NewEventHandler sampleCfg initDB [] sampleReq 5 true).out
        = Outcome.response 406 →
      (NewEventHandler sampleCfg initDB [] sampleReq 5 true).db = initDB ∧
        sampleReq.name = "") ∧
     ((sampleReq.video = none ∨ sampleReq.image = none) →
      (NewEventHandler sampleCfg initDB [] sampleReq 5 true).out
        = Outcome.panic ∧
      (NewEventHandler sampleCfg initDB [] sampleReq 5 true).db = initDB)) :=
  ⟨Reachable.init, by decide,
    c1_response_classification sampleCfg initDB [] sampleReq 5 true
      Reachable.init (by decide)⟩

/-- C2: a valid ingestion request (both file parts present, non-empty name,
non-empty data directory) appends exactly one new row to a well-formed store;
the new row's id is strictly greater than every previously assigned id, and
well-formedness is preserved (ids keep strictly increasing below the
`AUTOINCREMENT` counter, so no id is ever reused). -/
theorem c2_valid_insert_fresh_monotone_id (cfg : Config) (db : DB) (fs : FS)
    (r : Request) (now : Nat) (b : Bool) (vf imf : FilePart) (hWF : DB.WF db)
    (hv : r.video = some vf) (hi : r.image = some imf)
    (hn : r.name ≠ "") (hd : cfg.data ≠ "") :
    ∃ e : Event,
      (NewEventHandler cfg db fs r now b).db.rows = db.rows ++ [e] ∧
      e.id = db.nextId ∧
      (∀ x ∈ db.rows, x.id < e.id) ∧
      DB.WF (NewEventHandler cfg db fs r now b).db := by
  have hrows : (NewEventHandler cfg db fs r now b).db
      = DB.mk (db.rows ++ [Event.mk db.nextId r.name now
          (goJoin2 cfg.data vf.filename)
          (goJoin2 cfg.data imf.filename)]) (db.nextId + 1) := by
    simp only [NewEventHandler, hv, hi]
    rw [if_pos ⟨hn, goJoin2_ne_empty _ _ hd, goJoin2_ne_empty _ _ hd⟩]
    split <;> simp [CreateEvent]
  refine ⟨_, by rw [hrows], rfl, ?_, ?_⟩
  · intro x hx
    exact hWF.2 x hx
  · rw [hrows]
    constructor
    · rw [List.chain'_append]
      refine ⟨hWF.1, List.chain'_singleton _, ?_⟩
      intro x hx y hy
      simp only [List.head?_cons, Option.mem_def, Option.some.injEq] at hy
      have hxm : x ∈ db.rows := List.mem_of_mem_getLast? hx
      have := hWF.2 x hxm
      rw [← hy]
      exact this
    · intro e he
      simp only [List.mem_append, List.mem_singleton] at he
      rcases he with he | he
      · have := hWF.2 e he
        simp only []
        omega
      · rw [he]
        simp only []
        omega

/-- C2 witness: the insert property instantiated on the sample one-row store
and the sample valid request. -/
theorem c2_valid_insert_fresh_monotone_id_witness :
    DB.WF sampleDB ∧
    sampleReq.video = some (FilePart.mk "a.avi" [7]) ∧
    sampleReq.image = some (FilePart.mk "b.jpg" [8]) ∧
    sampleReq.name ≠ "" ∧ sampleCfg.data ≠ "" ∧
    (∃ e : Event,
      (NewEventHandler sampleCfg sampleDB [] sampleReq 5 true).db.rows
        = sampleDB.rows ++ [e] ∧
      e.id = sampleDB.nextId ∧
      (∀ x ∈ sampleDB.rows, x.id < e.id) ∧
      DB.WF (NewEventHandler sampleCfg sampleDB [] sampleReq 5 true).db) :=
  ⟨sampleDB_WF, by decide, by decide, by decide, by decide,
    c2_valid_insert_fresh_monotone_id sampleCfg sampleDB [] sampleReq 5 true
      (FilePart.mk "a.avi" [7]) (FilePart.mk "b.jpg" [8])
      sampleDB_WF (by decide) (by decide) (by decide) (by decide)⟩

/-- C4: on a well-formed store the recent-events listing returns at most 5
events, strictly ordered by descending id; an empty store yields the empty
sequence (and no error, since the operation is total); and with no
intervening writes repeated calls coincide. -/
theorem c4_listRecent_bounded_sorted_idempotent (db : DB) (hWF : DB.WF db) :
    (IndexEvents db).length ≤ 5 ∧
    List.Pairwise (fun a b => b.id < a.id) (IndexEvents db) ∧
    (db.rows = [] → IndexEvents db = []) ∧
    IndexEvents db = IndexEvents db := by
  refine ⟨?_, ?_, ?_, rfl⟩
  · exact List.length_take_le 5 _
  · have hsorted : List.Pairwise (fun a b : Event => b.id ≤ a.id)
        (List.insertionSort (fun a b => b.id ≤ a.id) db.rows) :=
      List.sorted_insertionSort _ db.rows
    have hperm : List.Perm
        (List.insertionSort (fun a b : Event => b.id ≤ a.id) db.rows)
        db.rows := List.perm_insertionSort _ db.rows
    have hidlt : List.Pairwise (fun a b : Event => a.id < b.id) db.rows :=
      List.chain'_iff_pairwise.mp hWF.1
    have hnodup : (db.rows.map Event.id).Nodup := by
      have hlt : List.Pairwise (· < ·) (db.rows.map Event.id) := by
        rw [List.pairwise_map]
        exact hidlt
      exact hlt.imp (fun h => ne_of_lt h)
    have hnodup2 : ((List.insertionSort (fun a b : Event => b.id ≤ a.id)
        db.rows).map Event.id).Nodup :=
      ((hperm.map Event.id).nodup_iff).mpr hnodup
    have hne : List.Pairwise (fun a b : Event => a.id ≠ b.id)
        (List.insertionSort (fun a b => b.id ≤ a.id) db.rows) := by
      have h2 : List.Pairwise Ne ((List.insertionSort
          (fun a b : Event => b.id ≤ a.id) db.rows).map Event.id) := hnodup2
      rw [List.pairwise_map] at h2
      exact h2
    have hstrict : List.Pairwise (fun a b : Event => b.id < a.id)
        (List.insertionSort (fun a b => b.id ≤ a.id) db.rows) := by
      have := hsorted.and hne
      exact this.imp (fun h => lt_of_le_of_ne h.1 (Ne.symm h.2))
    exact hstrict.sublist (List.take_sublist 5 _)
  · intro h
    simp [IndexEvents, h, List.insertionSort]

/-- C4 witness: the listing property instantiated on the sample one-row
store. -/
theorem c4_listRecent_bounded_sorted_idempotent_witness :
    DB.WF sampleDB ∧
    ((IndexEvents sampleDB).length ≤ 5 ∧
     List.Pairwise (fun a b => b.id < a.id) (IndexEvents sampleDB) ∧
     (sampleDB.rows = [] → IndexEvents sampleDB = []) ∧
     IndexEvents sampleDB = IndexEvents sampleDB) :=
  ⟨sampleDB_WF, c4_listRecent_bounded_sorted_idempotent sampleDB sampleDB_WF⟩

/-- Appending the `".mp4"` extension never yields the empty string. -/
theorem append_mp4_ne_empty (s : String) : s ++ ".mp4" ≠ "" := by
  intro h
  have := congrArg String.data h
  simp [String.data_append] at this

/-- C5: when the external encoder fails (`tr = none`: ffmpeg missing,
non-zero exit, or malformed input), the pipeline still responds 202, the
committed Event's video path equals the originally persisted (untranscoded)
path `filepath.Join(data, videoFilename)`, and that original file still
exists in the media store. -/
theorem c5_transcode_failure_fallback (cfg : Config) (db : DB) (fs : FS)
    (r : Request) (now : Nat) (b : Bool) (vf imf : FilePart) (hWF : DB.WF db)
    (hv : r.video = some vf) (hi : r.image = some imf)
    (hn : r.name ≠ "") (hd : cfg.data ≠ "") :
    (NewEventHandlerT cfg db fs r now none b).out = Outcome.response 202 ∧
    (∃ e : Event,
      (NewEventHandlerT cfg db fs r now none b).db.rows = db.rows ++ [e] ∧
      e.video = goJoin2 cfg.data vf.filename) ∧
    (fsRead (NewEventHandlerT cfg db fs r now none b).fs
      (goJoin2 cfg.data vf.filename)).isSome := by
  have hred : NewEventHandlerT cfg db fs r now none b
      = { out := Outcome.response 202,
          db := (CreateEvent db (Event.mk 0 r.name 0
              (goJoin2 cfg.data vf.filename)
              (goJoin2 cfg.data imf.filename)) now).1,
          fs := writeFileNoTrunc
            (writeFileNoTrunc fs (goJoin2 cfg.data vf.filename) vf.content)
            (goJoin2 cfg.data imf.filename) imf.content } := by
    simp only [NewEventHandlerT, hv, hi]
    rw [if_pos ⟨hn, goJoin2_ne_empty _ _ hd, goJoin2_ne_empty _ _ hd⟩]
    rw [getEventById_insert hWF]
  rw [hred]
  refine ⟨rfl, ⟨Event.mk db.nextId r.name now (goJoin2 cfg.data vf.filename)
    (goJoin2 cfg.data imf.filename), by simp [CreateEvent], rfl⟩, ?_⟩
  by_cases hpi : goJoin2 cfg.data imf.filename = goJoin2 cfg.data vf.filename
  · rw [hpi, fsRead_writeFileNoTrunc_self]
    rfl
  · rw [fsRead_writeFileNoTrunc_ne _ _ _ _ (fun h => hpi h.symm),
      fsRead_writeFileNoTrunc_self]
    rfl

/-- C5 witness: the transcode fallback instantiated on the sample store and
request. -/
theorem c5_transcode_failure_fallback_witness :
    DB.WF sampleDB ∧
    sampleReq.video = some (FilePart.mk "a.avi" [7]) ∧
    sampleReq.image = some (FilePart.mk "b.jpg" [8]) ∧
    sampleReq.name ≠ "" ∧ sampleCfg.data ≠ "" ∧
    ((NewEventHandlerT sampleCfg sampleDB [] sampleReq 5 none true).out
        = Outcome.response 202 ∧
     (∃ e : Event,
       (NewEventHandlerT sampleCfg sampleDB [] sampleReq 5 none true).db.rows
         = sampleDB.rows ++ [e] ∧
       e.video = goJoin2 sampleCfg.data "a.avi") ∧
     (fsRead (NewEventHandlerT sampleCfg sampleDB [] sampleReq 5 none true).fs
       (goJoin2 sampleCfg.data "a.avi")).isSome) :=
  ⟨sampleDB_WF, by decide, by decide, by decide, by decide,
    c5_transcode_failure_fallback sampleCfg sampleDB [] sampleReq 5 true
      (FilePart.mk "a.avi" [7]) (FilePart.mk "b.jpg" [8])
      sampleDB_WF (by decide) (by decide) (by decide) (by decide)⟩

/-- C6 counterexample: an upload whose video already has the transcoder's
target extension (`a.mp4`) with a succeeding encoder: the derived target path
equals the original path, so after ffmpeg's output is written the handler's
`os.Remove` deletes that very file — the Event row is committed with a video
path (`data/a.mp4`) that no longer exists in the media store. -/
theorem c6_mp4_upload_dangling_path :
    ((NewEventHandlerT sampleCfg initDB []
        { payloadSize := 100, name := "x",
          video := some { filename := "a.mp4", content := [7] },
          image := some { filename := "b.jpg", content := [8] } } 5
        (some [9]) true).db.rows
      = [{ id := 1, name := "x", time := 5, video := "data/a.mp4",
           image := "data/b.jpg" }]) ∧
    fsRead (NewEventHandlerT sampleCfg initDB []
        { payloadSize := 100, name := "x",
          video := some { filename := "a.mp4", content := [7] },
          image := some { filename := "b.jpg", content := [8] } } 5
        (some [9]) true).fs "data/a.mp4"
      = none := by
  decide

/-- C6 (amended): on a successful transcode the committed paths reference
existing files and only the old video file is removed, PROVIDED the derived
target path differs from the original video path (the uploaded video's
extension is not already `.mp4`) and the image path differs from the original
video path; in that case the committed row stores the new video location
(whose content is the encoder output) and the image path, both present in the
media store, while the original video path is gone. -/
theorem c6_commit_paths_exist_when_target_differs (cfg : Config) (db : DB)
    (fs : FS) (r : Request) (now : Nat) (b : Bool) (vf imf : FilePart)
    (o : List Nat) (hWF : DB.WF db)
    (hv : r.video = some vf) (hi : r.image = some imf)
    (hn : r.name ≠ "") (hd : cfg.data ≠ "")
    (hnew : trimSuffix (goJoin2 cfg.data vf.filename)
        (goExt (goJoin2 cfg.data vf.filename)) ++ ".mp4"
      ≠ goJoin2 cfg.data vf.filename)
    (hiv : goJoin2 cfg.data imf.filename ≠ goJoin2 cfg.data vf.filename) :
    (NewEventHandlerT cfg db fs r now (some o) b).out
      = Outcome.response 202 ∧
    (∃ e : Event,
      (NewEventHandlerT cfg db fs r now (some o) b).db.rows
        = db.rows ++ [e] ∧
      e.video = trimSuffix (goJoin2 cfg.data vf.filename)
          (goExt (goJoin2 cfg.data vf.filename)) ++ ".mp4" ∧
      e.image = goJoin2 cfg.data imf.filename) ∧
    fsRead (NewEventHandlerT cfg db fs r now (some o) b).fs
        (trimSuffix (goJoin2 cfg.data vf.filename)
          (goExt (goJoin2 cfg.data vf.filename)) ++ ".mp4")
      = some o ∧
    (fsRead (NewEventHandlerT cfg db fs r now (some o) b).fs
        (goJoin2 cfg.data imf.filename)).isSome ∧
    fsRead (NewEventHandlerT cfg db fs r now (some o) b).fs
        (goJoin2 cfg.data vf.filename)
      = none := by
  have hred : NewEventHandlerT cfg db fs r now (some o) b
      = { out := Outcome.response 202,
          db := (CreateEvent db (Event.mk 0 r.name 0
              (trimSuffix (goJoin2 cfg.data vf.filename)
                (goExt (goJoin2 cfg.data vf.filename)) ++ ".mp4")
              (goJoin2 cfg.data imf.filename)) now).1,
          fs := fsRemove (fsWrite
            (writeFileNoTrunc
              (writeFileNoTrunc fs (goJoin2 cfg.data vf.filename) vf.content)
              (goJoin2 cfg.data imf.filename) imf.content)
            (trimSuffix (goJoin2 cfg.data vf.filename)
              (goExt (goJoin2 cfg.data vf.filename)) ++ ".mp4") o)
            (goJoin2 cfg.data vf.filename) } := by
    simp only [NewEventHandlerT, hv, hi]
    rw [if_pos ⟨hn, goJoin2_ne_empty _ _ hd, append_mp4_ne_empty _⟩]
    rw [getEventById_insert hWF]
  rw [hred]
  refine ⟨rfl, ⟨Event.mk db.nextId r.name now
    (trimSuffix (goJoin2 cfg.data vf.filename)
      (goExt (goJoin2 cfg.data vf.filename)) ++ ".mp4")
    (goJoin2 cfg.data imf.filename), by simp [CreateEvent], rfl, rfl⟩,
    ?_, ?_, ?_⟩
  · rw [fsRead_remove_ne _ _ _ hnew, fsRead_write_self]
  · rw [fsRead_remove_ne _ _ _ hiv]
    by_cases hin : goJoin2 cfg.data imf.filename
        = trimSuffix (goJoin2 cfg.data vf.filename)
          (goExt (goJoin2 cfg.data vf.filename)) ++ ".mp4"
    · rw [hin, fsRead_write_self]
      rfl
    · rw [fsRead_write_ne _ _ _ _ hin, fsRead_writeFileNoTrunc_self]
      rfl
  · rw [fsRead_remove_self]

/-- C6 witness: the amended property instantiated on the sample request
(video `a.avi`, so the target `data/a.mp4` differs from `data/a.avi`). -/
theorem c6_commit_paths_exist_when_target_differs_witness :
    DB.WF sampleDB ∧
    sampleReq.video = some (FilePart.mk "a.avi" [7]) ∧
    sampleReq.image = some (FilePart.mk "b.jpg" [8]) ∧
    sampleReq.name ≠ "" ∧ sampleCfg.data ≠ "" ∧
    (trimSuffix (goJoin2 sampleCfg.data "a.avi")
        (goExt (goJoin2 sampleCfg.data "a.avi")) ++ ".mp4"
      ≠ goJoin2 sampleCfg.data "a.avi") ∧
    (goJoin2 sampleCfg.data "b.jpg" ≠ goJoin2 sampleCfg.data "a.avi") ∧
    ((NewEventHandlerT sampleCfg sampleDB [] sampleReq 5 (some [9]) true).out
        = Outcome.response 202 ∧
     (∃ e : Event,
       (NewEventHandlerT sampleCfg sampleDB [] sampleReq 5
           (some [9]) true).db.rows
         = sampleDB.rows ++ [e] ∧
       e.video = trimSuffix (goJoin2 sampleCfg.data "a.avi")
           (goExt (goJoin2 sampleCfg.data "a.avi")) ++ ".mp4" ∧
       e.image = goJoin2 sampleCfg.data "b.jpg") ∧
     fsRead (NewEventHandlerT sampleCfg sampleDB [] sampleReq 5
         (some [9]) true).fs
         (trimSuffix (goJoin2 sampleCfg.data "a.avi")
           (goExt (goJoin2 sampleCfg.data "a.avi")) ++ ".mp4")
       = some [9] ∧
     (fsRead (NewEventHandlerT sampleCfg sampleDB [] sampleReq 5
         (some [9]) true).fs (goJoin2 sampleCfg.data "b.jpg")).isSome ∧
     fsRead (NewEventHandlerT sampleCfg sampleDB [] sampleReq 5
         (some [9]) true).fs (goJoin2 sampleCfg.data "a.avi")
       = none) :=
  ⟨sampleDB_WF, by decide, by decide, by decide, by decide, by decide,
    by decide,
    c6_commit_paths_exist_when_target_differs sampleCfg sampleDB []
      sampleReq 5 true (FilePart.mk "a.avi" [7]) (FilePart.mk "b.jpg" [8])
      [9] sampleDB_WF (by decide) (by decide) (by decide) (by decide)
      (by decide) (by decide)⟩

/-- C7 counterexample: a payload one byte over the 100 MB value
(104857601 bytes) is NOT rejected: the handler proceeds, writes both files
to the media store, and responds 202 — there is no `PayloadTooLarge`
rejection before file I/O, because `ParseMultipartForm`'s argument only
bounds in-memory buffering. -/
theorem c7_oversize_payload_accepted :
    (NewEventHandler sampleCfg initDB []
        { payloadSize := 104857601, name := "x",
          video := some { filename := "a.avi", content := [7] },
          image := some { filename := "b.jpg", content := [8] } } 5 true).out
      = Outcome.response 202 ∧
    (NewEventHandler sampleCfg initDB []
        { payloadSize := 104857601, name := "x",
          video := some { filename := "a.avi", content := [7] },
          image := some { filename := "b.jpg", content := [8] } } 5 true).fs
      ≠ [] := by
  decide

/-- C7 (amended): the handler's outcome, store and filesystem are entirely
independent of the request's payload size — no size cap is enforced at all
(the 104857600 argument of `ParseMultipartForm` only bounds in-memory
buffering of the parse, with file parts spilling to temporary files). -/
theorem c7_payload_size_ignored (cfg : Config) (db : DB) (fs : FS)
    (r : Request) (now : Nat) (b : Bool) (n : Nat) :
    NewEventHandler cfg db fs { r with payloadSize := n } now b
      = NewEventHandler cfg db fs r now b := by
  cases r
  rfl

/-- C8 counterexample: the destination `data/b.jpg` already holds the longer
file `[1, 2, 3]`; saving the uploaded stream `[9]` over it (the handler's
`os.OpenFile` without `O_TRUNC` followed by `io.Copy`) leaves `[9, 2, 3]` —
not the uploaded stream `[9]`. -/
theorem c8_save_keeps_old_tail :
    fsRead (NewEventHandler sampleCfg initDB [("data/b.jpg", [1, 2, 3])]
        { payloadSize := 100, name := "x",
          video := some { filename := "a.avi", content := [7] },
          image := some { filename := "b.jpg", content := [9] } } 5 true).fs
        "data/b.jpg"
      = some [9, 2, 3] ∧ some [9, 2, 3] ≠ some ([9] : List Nat) := by
  decide

/-- C8 (amended): after a save, the destination file's contents are the
uploaded stream followed by whatever tail of the previous contents extends
beyond the stream's length; they equal exactly the uploaded stream if and
only if the previous contents (empty when the file was absent) are no longer
than the stream. -/
theorem c8_save_prefix_semantics (fs : FS) (p : String) (c : List Nat) :
    fsRead (writeFileNoTrunc fs p c) p
      = some (c ++ List.drop c.length ((fsRead fs p).getD [])) ∧
    (fsRead (writeFileNoTrunc fs p c) p = some c ↔
      ((fsRead fs p).getD []).length ≤ c.length) := by
  refine ⟨fsRead_writeFileNoTrunc_self fs p c, ?_⟩
  rw [fsRead_writeFileNoTrunc_self fs p c]
  constructor
  · intro h
    have h2 : c ++ List.drop c.length ((fsRead fs p).getD []) = c :=
      Option.some.inj h
    have h3 := congrArg List.length h2
    simp at h3
    omega
  · intro h
    have h3 : List.drop c.length ((fsRead fs p).getD []) = [] := by
      rw [List.drop_eq_nil_iff]
      exact h
    rw [h3, List.append_nil]

/-- C9 counterexample: for the event committed from a request named
`"cam7"`, the SMS message (`Motion event captured at <time>.`) does not
contain the event's name, refuting "references the event's name and
time". -/
theorem c9_message_lacks_event_name :
    (NewEventHandler sampleCfg initDB []
        { payloadSize := 100, name := "cam7",
          video := some { filename := "a.avi", content := [7] },
          image := some { filename := "b.jpg", content := [8] } } 5
        true).db.rows
      = [{ id := 1, name := "cam7", time := 5, video := "data/a.avi",
           image := "data/b.jpg" }] ∧
    ¬ List.IsInfix ("cam7".toList)
        (smsMessage { id := 1, name := "cam7", time := 5,
                      video := "data/a.avi", image := "data/b.jpg" }).toList := by
  decide

/-- C9 (amended): the SMS message always contains the event's time (though
not its name), and the notification result is ignored by the handler — it is
never propagated, never changes the HTTP outcome, and never alters the
committed store or filesystem. -/
theorem c9_message_time_sms_isolated (e : Event) (cfg : Config) (db : DB)
    (fs : FS) (r : Request) (now : Nat) (b₁ b₂ : Bool) :
    List.IsInfix (toString e.time).toList (smsMessage e).toList ∧
    NewEventHandler cfg db fs r now b₁ = NewEventHandler cfg db fs r now b₂ := by
  constructor
  · exact ⟨"Motion event captured at ".toList, ".".toList, by
      simp [smsMessage, String.toList, String.data_append]⟩
  · rfl

/-- C10: when both file parts are present and the data directory is
non-empty, the resolved video and image paths (`filepath.Join` of the data
directory and the client-supplied file name) are non-empty strings — even
for an empty client file name — and consequently the pre-commit completeness
check rejects with HTTP 406 exactly when the `name` field is empty. -/
theorem c10_resolved_paths_nonempty (cfg : Config) (db : DB) (fs : FS)
    (r : Request) (now : Nat) (b : Bool) (vf imf : FilePart)
    (hv : r.video = some vf) (hi : r.image = some imf) (hd : cfg.data ≠ "") :
    goJoin2 cfg.data vf.filename ≠ "" ∧ goJoin2 cfg.data imf.filename ≠ "" ∧
    ((NewEventHandler cfg db fs r now b).out = Outcome.response 406 ↔
      r.name = "") := by
  refine ⟨goJoin2_ne_empty _ _ hd, goJoin2_ne_empty _ _ hd, ?_⟩
  by_cases hn : r.name = ""
  · simp [NewEventHandler, hv, hi, hn]
  · simp only [NewEventHandler, hv, hi]
    rw [if_pos ⟨hn, goJoin2_ne_empty _ _ hd, goJoin2_ne_empty _ _ hd⟩]
    split
    · simp [hn]
    · simp [hn]

/-- C10 witness: instantiated on a request whose client-supplied file names
and `name` field are all empty: the joined paths are still `"data"` (not
empty) and the 406 is due to the empty name alone. -/
theorem c10_resolved_paths_nonempty_witness :
    emptyNameReq.video = some (FilePart.mk "" []) ∧
    emptyNameReq.image = some (FilePart.mk "" []) ∧
    sampleCfg.data ≠ "" ∧
    (goJoin2 sampleCfg.data "" ≠ "" ∧ goJoin2 sampleCfg.data "" ≠ "" ∧
     ((NewEventHandler sampleCfg initDB [] emptyNameReq 5 true).out
        = Outcome.response 406 ↔ emptyNameReq.name = "")) :=
  ⟨by decide, by decide, by decide,
    c10_resolved_paths_nonempty sampleCfg initDB [] emptyNameReq 5 true
      (FilePart.mk "" []) (FilePart.mk "" []) (by decide) (by decide)
      (by decide)⟩

end Seccam
